import Mathlib

set_option maxRecDepth 4000

/-!
Verification of the eblob binlog subsystem (binlog.c) against its
natural-language specification.

The development is a shallow embedding of the C source:
pure functions (header verification) become Lean functions; the stateful
operations (append, read, apply, open, recovery scan) become explicit
state-passing functions over a model of the handle and the on-disk file.

Modelling conventions, stated once here:

* The on-disk file is a list of cells.  A disk-header block occupies
  dhdrSize cells and a record-header block rhdrSize cells: the first cell
  carries the decoded struct, the remaining cells are interior padding.
  A positional header read decodes a header only at a true block start;
  at any other offset the raw bytes are modelled as decoding to a struct
  that fails verification, which takes the same error path in the source
  (binlog_read_record_hdr returns a negative code either way).  No input
  used in this development places payload bytes that could spell a
  verifiable header.
* A short positional read (fewer cells than requested remain) is the
  short-read error path of the source, returned as -EINTR exactly as the
  source maps a non-negative short pread result.
* assert(...) in the source aborts the process in the build as written
  (assert.h with NDEBUG unset).  Assertion failure, and the undefined
  behaviour of writing through the NULL key pointer in binlog_read when
  the caller supplied none, are both modelled by a distinguished abort
  outcome that is neither success nor an error return.
* OS failures (pwrite, fdatasync, flock, fstat, ftruncate, fallocate,
  open) are environmental; each operation takes an environment record
  choosing which of its OS calls fail.  A failed write is modelled as
  leaving the file unchanged.  malloc failure (ENOMEM) is not modelled.
* Record-header and disk-header integer fields are 64-bit unsigned on
  disk; they are modelled as naturals, with an explicit reduction modulo
  2 ^ 64 at the one subtraction where wrap-around can occur
  (bctl.size = rhdr.size - rhdr.meta_size in binlog_read).
* binlog.h is not part of the provided sources, so its constants and
  struct sizes are modelled from the spec (sections 3 and 6): field
  widths of 8 bytes, a 64-byte key abstracted to a single natural, a
  24-byte disk header and a 96-byte record header, placeholder values
  for the magic and the version, flag bits SYNC, TRUNCATE, PREALLOC
  forming the recognized mask, and record-type sentinels FIRST and LAST
  delimiting the valid open interval.
-/

/-! ## Error codes (Linux values, as returned negated by the source) -/

def EINVAL : Int := 22
def ENOTSUP : Int := 95
def EINTR : Int := 4
def Eio : Int := 5
def EEXIST : Int := 17

/-! ## Constants.  Modelled from the spec: binlog.h is not in the source
tree; values follow sections 3 and 6 of the spec. -/

def EBLOB_BINLOG_MAGIC : Nat := 60299
def EBLOB_BINLOG_VERSION : Nat := 1
def EBLOB_BINLOG_FLAGS_CFG_SYNC : Nat := 1
def EBLOB_BINLOG_FLAGS_CFG_TRUNCATE : Nat := 2
def EBLOB_BINLOG_FLAGS_CFG_PREALLOC : Nat := 4
def EBLOB_BINLOG_FLAGS_CFG_ALL : Nat := 7
def EBLOB_BINLOG_TYPE_FIRST : Nat := 0
def EBLOB_BINLOG_TYPE_LAST : Nat := 3

/-- Modulus of the 64-bit unsigned on-disk integer fields. -/
def U64 : Nat := 2 ^ 64

/-- Size in bytes of struct eblob_binlog_disk_hdr: magic plus version
plus flags, 8 bytes each.  Modelled from the spec (section 6). -/
def dhdrSize : Nat := 24

/-- Size in bytes of struct eblob_binlog_disk_record_hdr: type, size,
meta_size, flags at 8 bytes each plus the 64-byte key.  Modelled from
the spec (section 6). -/
def rhdrSize : Nat := 96

/-! ## Data model -/

/-- struct eblob_binlog_disk_hdr. -/
structure DiskHdr where
  magic : Nat
  version : Nat
  flags : Nat
deriving DecidableEq, Repr

/-- struct eblob_binlog_disk_record_hdr.  The 64-byte key id is
abstracted to one natural. -/
structure RecordHdr where
  type : Nat
  size : Nat
  metaSize : Nat
  flags : Nat
  key : Nat
deriving DecidableEq, Repr

/-- One byte position of the on-disk file.  Header blocks carry their
decoded struct in the first cell; pad cells are the interior bytes of a
header block; byte cells are payload (or zero-fill) bytes. -/
inductive Cell
  | dh (d : DiskHdr)
  | rh (r : RecordHdr)
  | pad
  | byte (b : Nat)
deriving DecidableEq, Repr

abbrev BinFile := List Cell

/-- struct eblob_binlog_cfg: the in-memory log handle.  fd is the file
descriptor field, -1 meaning unopened. -/
structure BinlogCfg where
  flags : Nat
  preallocStep : Nat
  preallocSize : Nat
  fd : Int
  binlogPosition : Nat
  diskHdr : Option DiskHdr
deriving DecidableEq, Repr

/-- Outcome of an operation: a success value, an error return carrying
the negative code, or a process abort (failed assert or undefined
behaviour). -/
inductive BRes (α : Type)
  | ok (a : α)
  | err (e : Int)
  | abort
deriving DecidableEq, Repr

/-! ## File primitives -/

/-- Raw byte value of a cell when a region is read as payload bytes. -/
def cellByte : Cell → Nat
  | .byte b => b
  | _ => 0

/-- pwrite at an offset: overwrite cells starting at off, zero-filling
any gap past the current end of file and extending the file as needed. -/
def writeAt (f : BinFile) (off : Nat) (cs : BinFile) : BinFile :=
  f.take off ++ List.replicate (off - f.length) (Cell.byte 0)
    ++ cs ++ f.drop (off + cs.length)

/-- Zero-extend the file to length n (space reservation never shrinks). -/
def padTo (f : BinFile) (n : Nat) : BinFile :=
  f ++ List.replicate (n - f.length) (Cell.byte 0)

/-- Serialized disk header block. -/
def dhdrCells (d : DiskHdr) : BinFile :=
  Cell.dh d :: List.replicate (dhdrSize - 1) Cell.pad

/-- Serialized record header block. -/
def rhdrCells (r : RecordHdr) : BinFile :=
  Cell.rh r :: List.replicate (rhdrSize - 1) Cell.pad

/-- Payload bytes as cells. -/
def byteCells (bs : List Nat) : BinFile := bs.map Cell.byte

/-! ## Header codecs (binlog.c lines 72-100) -/

/-- binlog_verify_hdr: magic compared first (-EINVAL on mismatch), then
the version (-ENOTSUP), then any flag bit outside the recognized mask
(-EINVAL). -/
def binlog_verify_hdr (d : DiskHdr) : Int :=
  if d.magic ≠ EBLOB_BINLOG_MAGIC then -EINVAL
  else if d.version ≠ EBLOB_BINLOG_VERSION then -ENOTSUP
  else if d.flags &&& (U64 - 1 - EBLOB_BINLOG_FLAGS_CFG_ALL) ≠ 0 then -EINVAL
  else 0

/-- binlog_verify_record_hdr: the type must lie strictly between the
FIRST and LAST sentinels and no record flag may be set. -/
def binlog_verify_record_hdr (r : RecordHdr) : Int :=
  if r.type ≤ EBLOB_BINLOG_TYPE_FIRST ∨ EBLOB_BINLOG_TYPE_LAST ≤ r.type then -EINVAL
  else if r.flags ≠ 0 then -EINVAL
  else 0

/-! ## Claim C7 -/

/-- A header whose magic is corrupted (all other fields good). -/
def hdrBadMagic : DiskHdr :=
  { magic := EBLOB_BINLOG_MAGIC + 1, version := EBLOB_BINLOG_VERSION, flags := 0 }

/-- A header with an undefined flag bit set (magic and version good). -/
def hdrBadFlags : DiskHdr :=
  { magic := EBLOB_BINLOG_MAGIC, version := EBLOB_BINLOG_VERSION, flags := 8 }

/-- Claim C7, counterexample: the failure kind for a corrupted magic and
the failure kind for an undefined flag bit are the same error code
(-EINVAL), so the three failure kinds are not mutually distinguishable
as the claim states. -/
theorem verify_hdr_magic_flags_same_code :
    binlog_verify_hdr hdrBadMagic = binlog_verify_hdr hdrBadFlags ∧
    binlog_verify_hdr hdrBadMagic ≠ 0 := by
  constructor
  · decide
  · decide

/-- Claim C7 (amended): verify fails with -EINVAL when the magic does
not match; with -ENOTSUP when the magic matches but the version differs
from the one this implementation writes; with -EINVAL again when magic
and version are good but a flag bit outside the recognized set is set
(so the magic and flags failures share one error code and only the
version failure is distinguishable); and a header with correct magic,
current version and only recognized flags passes. -/
theorem binlog_verify_hdr_error_mapping (d : DiskHdr) :
    (d.magic ≠ EBLOB_BINLOG_MAGIC → binlog_verify_hdr d = -EINVAL) ∧
    (d.magic = EBLOB_BINLOG_MAGIC → d.version ≠ EBLOB_BINLOG_VERSION →
      binlog_verify_hdr d = -ENOTSUP) ∧
    (d.magic = EBLOB_BINLOG_MAGIC → d.version = EBLOB_BINLOG_VERSION →
      d.flags &&& (U64 - 1 - EBLOB_BINLOG_FLAGS_CFG_ALL) ≠ 0 →
      binlog_verify_hdr d = -EINVAL) ∧
    (d.magic = EBLOB_BINLOG_MAGIC → d.version = EBLOB_BINLOG_VERSION →
      d.flags &&& (U64 - 1 - EBLOB_BINLOG_FLAGS_CFG_ALL) = 0 →
      binlog_verify_hdr d = 0) := by
  unfold binlog_verify_hdr
  refine ⟨fun h1 => ?_, fun h1 h2 => ?_, fun h1 h2 h3 => ?_, fun h1 h2 h3 => ?_⟩
  · simp [h1]
  · simp [h1, h2]
  · simp [h1, h2, h3]
  · simp [h1, h2, h3]

/-- Claim C7, witness: the amended mapping instantiated at a concrete
header with a future version. -/
theorem binlog_verify_hdr_error_mapping_witness :
    binlog_verify_hdr
      { magic := EBLOB_BINLOG_MAGIC, version := 2, flags := 0 } = -ENOTSUP :=
  (binlog_verify_hdr_error_mapping
    { magic := EBLOB_BINLOG_MAGIC, version := 2, flags := 0 }).2.1
    rfl (by decide)

/-! ## Positional reader (binlog.c lines 197-261, 513-557) -/

/-- binlog_read_record_hdr: pread of rhdrSize bytes at offset (short
read maps to -EINTR as in the source), then binlog_verify_record_hdr
(its negative code is propagated).  The assert offset > 0 of the source
holds at every call site modelled here (offsets are at least dhdrSize). -/
def binlog_read_record_hdr (f : BinFile) (off : Nat) : Except Int RecordHdr :=
  if off + rhdrSize ≤ f.length then
    match f[off]? with
    | some (Cell.rh r) =>
        if binlog_verify_record_hdr r = 0 then Except.ok r
        else Except.error (binlog_verify_record_hdr r)
    | _ => Except.error (-EINVAL)
  else Except.error (-EINTR)

/-- binlog_read_record_data: pread of size bytes at offset into a fresh
buffer; none models the NULL return on a short read.  The assert
size > 0 of the source holds at its only call site (rhdr.size ≠ 0). -/
def binlog_read_record_data (f : BinFile) (off : Nat) (size : Nat) :
    Option (List Nat) :=
  if off + size ≤ f.length then some (((f.drop off).take size).map cellByte)
  else none

/-- struct eblob_binlog_ctl as populated by binlog_read: the in-memory
record descriptor (type, flags, key, meta view and size, data view and
size). -/
structure Bctl where
  type : Nat
  flags : Nat
  key : Nat
  metaSize : Nat
  meta : List Nat
  size : Nat
  data : List Nat
deriving DecidableEq, Repr

/-- binlog_read: read and verify the record header at the offset, read
the payload when the header size field is nonzero (NULL buffer maps to
-Eio), copy type, flags and key into the descriptor (writing the key
through a NULL caller key pointer is the abort outcome), then split the
payload at the meta_size the header declares.  bctl.size is the 64-bit
unsigned difference rhdr.size - rhdr.meta_size, reduced mod 2 ^ 64; the
meta and data views truncate at the end of the one payload allocation
(the source would read out of bounds there). -/
def binlog_read (f : BinFile) (hasKeyBuf : Bool) (off : Nat) : BRes Bctl :=
  if off < dhdrSize then BRes.abort else
  match binlog_read_record_hdr f off with
  | .error e => BRes.err e
  | .ok r =>
    match (if r.size ≠ 0 then
            (binlog_read_record_data f (off + rhdrSize) r.size).map some
           else some none) with
    | none => BRes.err (-Eio)
    | some dataOpt =>
      if hasKeyBuf = false then BRes.abort else
      let d := dataOpt.getD []
      let bsize := (r.size + U64 - r.metaSize % U64) % U64
      BRes.ok
        { type := r.type, flags := r.flags, key := r.key,
          metaSize := r.metaSize,
          meta := if 0 < r.metaSize then d.take r.metaSize else [],
          size := bsize,
          data := if 0 < bsize then d.drop r.metaSize else [] }

/-! ## Append engine (binlog.c lines 52-66, 425-506) -/

/-- Which OS calls of one append succeed in this run. -/
structure AppendEnv where
  allocOk : Bool
  hdrWriteOk : Bool
  metaWriteOk : Bool
  dataWriteOk : Bool
  syncOk : Bool
deriving DecidableEq, Repr

/-- The caller-filled part of struct eblob_binlog_ctl handed to
binlog_append: type, flags, key, and the metadata and data buffers
(whose lengths are the meta_size and size fields the caller set). -/
structure AppendIn where
  type : Nat
  flags : Nat
  key : Nat
  meta : List Nat
  data : List Nat
deriving DecidableEq, Repr

/-- binlog_extend: if the PREALLOC flag is configured, first bump the
preallocated-size field by one step, then reserve space up to it.
The reservation call _binlog_allocate is not in the provided sources;
modelled from the spec (section 4.3) as zero-extending the file to the
target size, failing with an Io error chosen by the environment, with
the bumped field retained on failure exactly as in the source. -/
def binlog_extend (cfg : BinlogCfg) (f : BinFile) (allocOk : Bool) :
    BinlogCfg × BinFile × Int :=
  if cfg.flags &&& EBLOB_BINLOG_FLAGS_CFG_PREALLOC ≠ 0 then
    let cfg1 := { cfg with preallocSize := cfg.preallocSize + cfg.preallocStep }
    if allocOk then (cfg1, padTo f cfg1.preallocSize, 0)
    else (cfg1, f, -Eio)
  else (cfg, f, 0)

/-- Outcome of binlog_append: success or error return both carry the
handle and file as left by the call (the source returns with whatever
mutations already happened). -/
inductive AppendOut
  | ok (cfg : BinlogCfg) (f : BinFile)
  | err (cfg : BinlogCfg) (f : BinFile) (e : Int)
  | abort
deriving DecidableEq, Repr

/-- binlog_append, step for step from the source: asserts fd >= 0 and
binlog_position > 0; extends first when position + record_len would
reach the preallocated size; constructs the record header from the
descriptor type, combined size, flags and key - the meta_size field of
the stack-allocated header is never assigned, so it carries an
indeterminate value, made explicit here as the junkMetaSize argument;
asserts the built header verifies; writes the header at the current
position; then the metadata, advancing the running offset past the
header only inside the metadata branch; then the data, advancing the
offset by the metadata size only inside the data branch (so with an
empty metadata buffer the data is written at the un-advanced offset,
on top of the record header); syncs unless the handle is in
synchronous-write mode; and only then advances the write cursor by
record_len. -/
def binlog_append (cfg : BinlogCfg) (f : BinFile) (ctl : AppendIn)
    (junkMetaSize : Nat) (env : AppendEnv) : AppendOut :=
  if cfg.fd < 0 then AppendOut.abort else
  if cfg.binlogPosition = 0 then AppendOut.abort else
  let record_len := rhdrSize + ctl.meta.length + ctl.data.length
  let ext := if cfg.preallocSize ≤ cfg.binlogPosition + record_len
             then binlog_extend cfg f env.allocOk
             else (cfg, f, 0)
  let cfg1 := ext.1
  let f1 := ext.2.1
  if ext.2.2 ≠ 0 then AppendOut.err cfg1 f1 ext.2.2 else
  let rhdr : RecordHdr :=
    { type := ctl.type, size := ctl.meta.length + ctl.data.length,
      metaSize := junkMetaSize, flags := ctl.flags, key := ctl.key }
  if binlog_verify_record_hdr rhdr ≠ 0 then AppendOut.abort else
  let offset0 := cfg1.binlogPosition
  if ¬ env.hdrWriteOk then AppendOut.err cfg1 f1 (-Eio) else
  let f2 := writeAt f1 offset0 (rhdrCells rhdr)
  let step2 : Option (BinFile × Nat) :=
    if 0 < ctl.meta.length then
      if env.metaWriteOk then
        some (writeAt f2 (offset0 + rhdrSize) (byteCells ctl.meta),
              offset0 + rhdrSize)
      else none
    else some (f2, offset0)
  match step2 with
  | none => AppendOut.err cfg1 f2 (-Eio)
  | some (f3, offset1) =>
    let step3 : Option BinFile :=
      if 0 < ctl.data.length then
        if env.dataWriteOk then
          some (writeAt f3 (offset1 + ctl.meta.length) (byteCells ctl.data))
        else none
      else some f3
    match step3 with
    | none => AppendOut.err cfg1 f3 (-Eio)
    | some f4 =>
      if cfg1.flags &&& EBLOB_BINLOG_FLAGS_CFG_SYNC = 0 then
        if env.syncOk then
          AppendOut.ok
            { cfg1 with binlogPosition := cfg1.binlogPosition + record_len } f4
        else AppendOut.err cfg1 f4 (-Eio)
      else
        AppendOut.ok
          { cfg1 with binlogPosition := cfg1.binlogPosition + record_len } f4

/-! ## Cursor lemmas for the append engine -/

theorem binlog_extend_fst_binlogPosition (cfg : BinlogCfg) (f : BinFile)
    (b : Bool) :
    ((binlog_extend cfg f b).1).binlogPosition = cfg.binlogPosition := by
  unfold binlog_extend
  split_ifs <;> rfl

theorem extIf_binlogPosition (cfg : BinlogCfg) (f : BinFile) (b : Bool)
    (c : Prop) [Decidable c] :
    ((if c then binlog_extend cfg f b else (cfg, f, 0)).1).binlogPosition =
      cfg.binlogPosition := by
  split_ifs with h
  · exact binlog_extend_fst_binlogPosition cfg f b
  · rfl

/-- A successful append advances the cursor by exactly
record-header size + metadata size + data size. -/
theorem binlog_append_ok_position {cfg : BinlogCfg} {f : BinFile}
    {ctl : AppendIn} {j : Nat} {env : AppendEnv} {cfg2 : BinlogCfg}
    {f2 : BinFile}
    (h : binlog_append cfg f ctl j env = AppendOut.ok cfg2 f2) :
    cfg2.binlogPosition =
      cfg.binlogPosition + (rhdrSize + ctl.meta.length + ctl.data.length) := by
  simp only [binlog_append] at h
  repeat' split at h
  all_goals injection h
  all_goals subst_vars
  all_goals simp [binlog_extend_fst_binlogPosition]

/-- A failed append never moves the write cursor. -/
theorem binlog_append_err_position {cfg : BinlogCfg} {f : BinFile}
    {ctl : AppendIn} {j : Nat} {env : AppendEnv} {cfg2 : BinlogCfg}
    {f2 : BinFile} {e : Int}
    (h : binlog_append cfg f ctl j env = AppendOut.err cfg2 f2 e) :
    cfg2.binlogPosition = cfg.binlogPosition := by
  simp only [binlog_append] at h
  repeat' split at h
  all_goals injection h
  all_goals subst_vars
  all_goals simp [binlog_extend_fst_binlogPosition]

/-- A sequence of appends, stopping at the first non-success. -/
def appendMany (cfg : BinlogCfg) (f : BinFile) :
    List (AppendIn × Nat × AppendEnv) → AppendOut
  | [] => AppendOut.ok cfg f
  | x :: rest =>
    match binlog_append cfg f x.1 x.2.1 x.2.2 with
    | AppendOut.ok cfg1 f1 => appendMany cfg1 f1 rest
    | out => out

/-- On-disk length of one appended record: header plus payload. -/
def recLen (x : AppendIn × Nat × AppendEnv) : Nat :=
  rhdrSize + x.1.meta.length + x.1.data.length

theorem appendMany_ok_position :
    ∀ (l : List (AppendIn × Nat × AppendEnv)) (cfg : BinlogCfg) (f : BinFile)
      (cfg2 : BinlogCfg) (f2 : BinFile),
      appendMany cfg f l = AppendOut.ok cfg2 f2 →
      cfg2.binlogPosition = cfg.binlogPosition + (l.map recLen).sum := by
  intro l
  induction l with
  | nil =>
    intro cfg f cfg2 f2 h
    injection h with h1 h2
    rw [← h1]
    simp
  | cons x rest ih =>
    intro cfg f cfg2 f2 h
    simp only [appendMany] at h
    split at h
    case _ cfg1 f1 heq =>
      have hx := binlog_append_ok_position heq
      have hr := ih cfg1 f1 cfg2 f2 h
      simp only [List.map_cons, List.sum_cons, recLen]
      omega
    case _ out hne =>
      exact (hne cfg2 f2 h).elim

/-! ## Claim C3 -/

/-- Claim C3: after N successful appends starting from a fresh log (write
cursor at the disk-header size) the cursor equals the disk-header size
plus the sum over the records of record-header size + payload size, and
an append that returns an error leaves the cursor unchanged (the source
advances it only after every write and the durability sync succeeded). -/
theorem binlog_cursor_after_appends :
    (∀ (cfg : BinlogCfg) (f : BinFile) (l : List (AppendIn × Nat × AppendEnv))
       (cfg2 : BinlogCfg) (f2 : BinFile),
       cfg.binlogPosition = dhdrSize →
       appendMany cfg f l = AppendOut.ok cfg2 f2 →
       cfg2.binlogPosition = dhdrSize + (l.map recLen).sum) ∧
    (∀ (cfg : BinlogCfg) (f : BinFile) (ctl : AppendIn) (j : Nat)
       (env : AppendEnv) (cfg2 : BinlogCfg) (f2 : BinFile) (e : Int),
       binlog_append cfg f ctl j env = AppendOut.err cfg2 f2 e →
       cfg2.binlogPosition = cfg.binlogPosition) := by
  constructor
  · intro cfg f l cfg2 f2 hpos h
    have hsum := appendMany_ok_position l cfg f cfg2 f2 h
    rw [hpos] at hsum
    exact hsum
  · intro cfg f ctl j env cfg2 f2 e h
    exact binlog_append_err_position h

/-- All OS calls succeed. -/
def envOK : AppendEnv :=
  { allocOk := true, hdrWriteOk := true, metaWriteOk := true,
    dataWriteOk := true, syncOk := true }

/-- A well-formed disk header as binlog_create writes it with default
configuration flags. -/
def goodHdr : DiskHdr :=
  { magic := EBLOB_BINLOG_MAGIC, version := EBLOB_BINLOG_VERSION, flags := 0 }

/-- A freshly created log file: just the disk header block. -/
def fileW : BinFile := dhdrCells goodHdr

/-- An open handle on the fresh log (cursor at the header size). -/
def cfgW : BinlogCfg :=
  { flags := 0, preallocStep := 0, preallocSize := 0, fd := 3,
    binlogPosition := dhdrSize, diskHdr := some goodHdr }

/-- Handle component of an append outcome (for ok and error returns). -/
def AppendOut.theCfg : AppendOut → BinlogCfg
  | AppendOut.ok cfg _ => cfg
  | AppendOut.err cfg _ _ => cfg
  | AppendOut.abort => { flags := 0, preallocStep := 0, preallocSize := 0,
                         fd := -1, binlogPosition := 0, diskHdr := none }

/-- File component of an append outcome. -/
def AppendOut.theFile : AppendOut → BinFile
  | AppendOut.ok _ f => f
  | AppendOut.err _ f _ => f
  | AppendOut.abort => []

/-- Two concrete appends: a record with one metadata byte and one data
byte, then a record with empty payload. -/
def lW : List (AppendIn × Nat × AppendEnv) :=
  [({ type := 1, flags := 0, key := 5, meta := [1], data := [2] }, 0, envOK),
   ({ type := 2, flags := 0, key := 6, meta := [], data := [] }, 0, envOK)]

/-- Claim C3, witness: the two concrete appends succeed and leave the
cursor at dhdrSize + (96 + 2) + 96. -/
theorem binlog_cursor_after_appends_witness :
    (appendMany cfgW fileW lW).theCfg.binlogPosition = dhdrSize + 194 := by
  have hm : appendMany cfgW fileW lW =
      AppendOut.ok (appendMany cfgW fileW lW).theCfg
        (appendMany cfgW fileW lW).theFile := by decide
  have h2 := binlog_cursor_after_appends.1 cfgW fileW lW
    (appendMany cfgW fileW lW).theCfg (appendMany cfgW fileW lW).theFile rfl hm
  rw [h2]
  decide

/-! ## Claim C10 -/

/-- Claim C10: when an append whose preallocation extension succeeded
then fails (a write or the sync), the error return still carries the
preallocated-size field bumped by one step, while the write cursor is
unchanged. -/
theorem binlog_append_failed_keeps_prealloc_growth
    (cfg : BinlogCfg) (f : BinFile) (ctl : AppendIn) (j : Nat)
    (env : AppendEnv) (cfg2 : BinlogCfg) (f2 : BinFile) (e : Int)
    (hpre : cfg.flags &&& EBLOB_BINLOG_FLAGS_CFG_PREALLOC ≠ 0)
    (htrig : cfg.preallocSize ≤
      cfg.binlogPosition + (rhdrSize + ctl.meta.length + ctl.data.length))
    (halloc : env.allocOk = true)
    (herr : binlog_append cfg f ctl j env = AppendOut.err cfg2 f2 e) :
    cfg2.preallocSize = cfg.preallocSize + cfg.preallocStep ∧
    cfg2.binlogPosition = cfg.binlogPosition := by
  simp only [binlog_append] at herr
  rw [if_pos htrig] at herr
  simp only [binlog_extend, halloc, if_pos hpre, if_true] at herr
  repeat' split at herr
  all_goals injection herr
  all_goals subst_vars
  all_goals constructor <;> rfl

/-- Environment where the record-header write fails (after a successful
space reservation). -/
def envHdrFail : AppendEnv :=
  { allocOk := true, hdrWriteOk := false, metaWriteOk := true,
    dataWriteOk := true, syncOk := true }

/-- A handle with preallocation enabled whose reserve is about to run
out. -/
def cfgP : BinlogCfg :=
  { flags := EBLOB_BINLOG_FLAGS_CFG_PREALLOC, preallocStep := 100,
    preallocSize := 30, fd := 3, binlogPosition := dhdrSize,
    diskHdr := some goodHdr }

def ctlP : AppendIn := { type := 1, flags := 0, key := 9, meta := [], data := [] }

/-- Claim C10, witness: the concrete failing append keeps the bumped
preallocated size and the old cursor. -/
theorem binlog_append_failed_keeps_prealloc_growth_witness :
    (binlog_append cfgP fileW ctlP 0 envHdrFail).theCfg.preallocSize = 130 ∧
    (binlog_append cfgP fileW ctlP 0 envHdrFail).theCfg.binlogPosition =
      dhdrSize := by
  have hm : binlog_append cfgP fileW ctlP 0 envHdrFail =
      AppendOut.err (binlog_append cfgP fileW ctlP 0 envHdrFail).theCfg
        (binlog_append cfgP fileW ctlP 0 envHdrFail).theFile (-Eio) := by decide
  have h2 := binlog_append_failed_keeps_prealloc_growth cfgP fileW ctlP 0
    envHdrFail (binlog_append cfgP fileW ctlP 0 envHdrFail).theCfg
    (binlog_append cfgP fileW ctlP 0 envHdrFail).theFile (-Eio)
    (by decide) (by decide) rfl hm
  refine ⟨?_, ?_⟩
  · rw [h2.1]
    decide
  · rw [h2.2]
    decide

/-! ## Replay driver: binlog_apply (binlog.c lines 567-603) -/

/-- Outcome of binlog_apply together with the trace of descriptors the
caller-supplied handler was invoked on (in invocation order). -/
inductive ApplyOut
  | ok (trace : List Bctl)
  | err (trace : List Bctl) (e : Int)
  | abort
deriving DecidableEq, Repr

/-- The while loop of binlog_apply: while the offset is strictly below
the write cursor, read the record at the offset through binlog_read
(with the zeroed descriptor of the source, whose key pointer is NULL),
invoke the handler, stop with its error if nonzero, and advance the
offset by bctl.size + record-header size - bctl.size is the data-size
portion only, exactly as the source adds it.  The fuel only bounds the
recursion; the abort it returns when exhausted is unreachable because
binlog_apply only enters the loop when the cursor is at most the
disk-header size (see the assert below), so the loop body never runs. -/
def binlog_apply_loop (cfg : BinlogCfg) (f : BinFile) (func : Bctl → Int) :
    Nat → Nat → List Bctl → ApplyOut
  | fuel, offset, tr =>
    if offset < cfg.binlogPosition then
      match binlog_read f false offset with
      | BRes.err e => ApplyOut.err tr e
      | BRes.abort => ApplyOut.abort
      | BRes.ok bctl =>
        if func bctl ≠ 0 then ApplyOut.err (tr ++ [bctl]) (func bctl)
        else
          match fuel with
          | 0 => ApplyOut.abort
          | fuel1 + 1 =>
            binlog_apply_loop cfg f func fuel1
              (offset + (bctl.size + rhdrSize)) (tr ++ [bctl])
    else ApplyOut.ok tr

/-- binlog_apply: a NULL handler is -EINVAL; then the source asserts
binlog_position <= offset with offset just initialised to the
disk-header size, so any log holding at least one record fails the
assertion and the process aborts; otherwise the scan loop runs from the
disk-header size. -/
def binlog_apply (cfg : BinlogCfg) (f : BinFile)
    (func : Option (Bctl → Int)) : ApplyOut :=
  match func with
  | none => ApplyOut.err [] (-EINVAL)
  | some fn =>
    if cfg.binlogPosition ≤ dhdrSize then
      binlog_apply_loop cfg f fn (cfg.binlogPosition + 1) dhdrSize []
    else ApplyOut.abort

/-! ## Claim C9 -/

/-- Claim C9: on a log whose write cursor equals the disk-header size
(no committed records), apply with any non-NULL handler succeeds and
never invokes the handler. -/
theorem binlog_apply_empty_log (cfg : BinlogCfg) (f : BinFile)
    (fn : Bctl → Int) (hpos : cfg.binlogPosition = dhdrSize) :
    binlog_apply cfg f (some fn) = ApplyOut.ok [] := by
  simp [binlog_apply, binlog_apply_loop, hpos]

/-- Claim C9, witness: apply on the concrete fresh handle. -/
theorem binlog_apply_empty_log_witness :
    binlog_apply cfgW fileW (some (fun _ => 0)) = ApplyOut.ok [] :=
  binlog_apply_empty_log cfgW fileW (fun _ => 0) rfl

/-! ## Claim C2 -/

/-- One successfully committed record with a one-byte metadata portion
(the indeterminate meta_size field happens to hold the matching value
1, the most favourable case for the claim). -/
def res1 : AppendOut :=
  binlog_append cfgW fileW
    { type := 1, flags := 0, key := 7, meta := [1], data := [] } 1 envOK

/-- Claim C2, failing input: a log with exactly one committed record.
The append succeeds, yet apply on the resulting handle aborts on the
inverted assertion binlog_position <= sizeof(disk header) instead of
replaying the record: the handler is never invoked. -/
theorem binlog_apply_aborts_on_nonempty_log :
    res1 = AppendOut.ok res1.theCfg res1.theFile ∧
    res1.theCfg.binlogPosition = dhdrSize + 97 ∧
    binlog_apply res1.theCfg res1.theFile (some (fun _ => 0)) =
      ApplyOut.abort := by
  refine ⟨by decide, by decide, ?_⟩
  decide

/-! ## Claim C1 -/

/-- The record of claim C1: no metadata, one data byte. -/
def ctlC1 : AppendIn := { type := 1, flags := 0, key := 7, meta := [], data := [9] }

/-- Appending ctlC1 to the fresh log (all OS calls succeed; the
indeterminate meta_size value is 0 here and irrelevant to the result). -/
def resC1 : AppendOut := binlog_append cfgW fileW ctlC1 0 envOK

/-- Claim C1, failing input: the append succeeds, but because the
running offset is advanced past the record header only inside the
metadata branch, a record with an empty metadata buffer gets its data
bytes written at the un-advanced offset - on top of the record header.
The positional read at the pre-append cursor then fails verification
(-EINVAL) instead of returning a descriptor with the appended type,
key, flags and payload. -/
theorem binlog_append_then_read_fails_at_cursor :
    resC1 = AppendOut.ok resC1.theCfg resC1.theFile ∧
    resC1.theFile[dhdrSize]? = some (Cell.byte 9) ∧
    binlog_read resC1.theFile true dhdrSize = BRes.err (-EINVAL) := by
  refine ⟨by decide, by decide, ?_⟩
  decide

/-! ## Claim C8 -/

/-- The record header that the append of claim C8 builds and writes:
size 0 (empty payload) but meta_size equal to the indeterminate stack
value 5. -/
def rhdrC8 : RecordHdr := { type := 1, size := 0, metaSize := 5, flags := 0, key := 7 }

/-- Appending an empty-payload record while the uninitialised meta_size
stack slot holds 5. -/
def resC8 : AppendOut :=
  binlog_append cfgW fileW
    { type := 1, flags := 0, key := 7, meta := [], data := [] } 5 envOK

/-- Claim C8, failing input: the append succeeds and the record header
it wrote to disk has size 0 but meta_size 5, violating the claimed
invariant size >= meta_size (meta_size is never assigned in the
source, so the written value is whatever the stack held).  The type
part of the invariant does hold - the assert on
binlog_verify_record_hdr guarantees it for any successful append. -/
theorem binlog_append_writes_meta_size_violation :
    resC8 = AppendOut.ok resC8.theCfg resC8.theFile ∧
    resC8.theFile[dhdrSize]? = some (Cell.rh rhdrC8) ∧
    rhdrC8.metaSize > rhdrC8.size := by
  refine ⟨by decide, by decide, by decide⟩

/-! ## Recovery scan: binlog_get_next_lsn (binlog.c lines 269-279) -/

/-- A successful header read needs the full header inside the file. -/
theorem binlog_read_record_hdr_ok_le {f : BinFile} {off : Nat}
    {r : RecordHdr} (h : binlog_read_record_hdr f off = Except.ok r) :
    off + rhdrSize ≤ f.length := by
  unfold binlog_read_record_hdr at h
  by_cases hle : off + rhdrSize ≤ f.length
  · exact hle
  · rw [if_neg hle] at h
    exact Except.noConfusion h

/-- The loop of binlog_get_next_lsn: while a record header reads and
verifies at the cursor, advance by rhdr.size + record-header size;
return the cursor at the first failure.  The fuel only bounds the
recursion in Lean; lsnScanFuel_spec below shows file length + 2 is
always enough, because every successful header read sits fully inside
the file and advances the cursor by at least the header size. -/
def lsnScanFuel (f : BinFile) : Nat → Nat → Option Nat
  | fuel, off =>
    match binlog_read_record_hdr f off with
    | Except.error _ => some off
    | Except.ok r =>
      match fuel with
      | 0 => none
      | fuel1 + 1 => lsnScanFuel f fuel1 (off + (r.size + rhdrSize))

/-- binlog_get_next_lsn: scan from the disk-header size.  The getD
default is never taken (lsnScanFuel_spec). -/
def binlog_get_next_lsn (f : BinFile) : Nat :=
  (lsnScanFuel f (f.length + 2) dhdrSize).getD dhdrSize

/-- The chain of offsets the recovery scan walks: each step is one
successfully read and verified record header, advancing by
record-header size + that record's size field. -/
inductive ScanChain (f : BinFile) : Nat → Nat → Prop
  | refl (o : Nat) : ScanChain f o o
  | step {o o2 : Nat} (r : RecordHdr)
      (hr : binlog_read_record_hdr f o = Except.ok r)
      (hc : ScanChain f (o + (r.size + rhdrSize)) o2) : ScanChain f o o2

theorem lsnScanFuel_spec (f : BinFile) :
    ∀ (fuel off : Nat), f.length + 1 ≤ off + fuel →
      ∃ l, lsnScanFuel f fuel off = some l ∧ ScanChain f off l ∧
        ∃ e, binlog_read_record_hdr f l = Except.error e := by
  intro fuel
  induction fuel with
  | zero =>
    intro off hge
    cases hr : binlog_read_record_hdr f off with
    | ok r =>
      have hb := binlog_read_record_hdr_ok_le hr
      omega
    | error e =>
      refine ⟨off, ?_, ScanChain.refl off, e, hr⟩
      simp [lsnScanFuel, hr]
  | succ fuel1 ih =>
    intro off hge
    cases hr : binlog_read_record_hdr f off with
    | error e =>
      refine ⟨off, ?_, ScanChain.refl off, e, hr⟩
      simp [lsnScanFuel, hr]
    | ok r =>
      have hb := binlog_read_record_hdr_ok_le hr
      have hpos : 0 < rhdrSize := by decide
      obtain ⟨l, h1, h2, h3⟩ := ih (off + (r.size + rhdrSize)) (by omega)
      refine ⟨l, ?_, ScanChain.step r hr h2, h3⟩
      rw [lsnScanFuel, hr]
      exact h1

/-! ## Claim C4 -/

/-- Claim C4: for every log file, the recovery scan starts at the
disk-header size, performs a chain of successful header reads each
advancing the offset by record-header size + the record's size field,
and stops - without error - exactly at the first offset where the
header read or verification fails; that offset is the recovered write
cursor (binlog_open stores it as the position, see binlog_open below). -/
theorem binlog_recovery_scan_spec (f : BinFile) :
    ScanChain f dhdrSize (binlog_get_next_lsn f) ∧
    ∃ e, binlog_read_record_hdr f (binlog_get_next_lsn f) = Except.error e := by
  obtain ⟨l, h1, h2, h3⟩ := lsnScanFuel_spec f (f.length + 2) dhdrSize (by omega)
  unfold binlog_get_next_lsn
  rw [h1]
  exact ⟨h2, h3⟩

/-! ## Log file manager: header read, create, open
(binlog.c lines 102-148, 153-191, 339-420) -/

/-- binlog_hdr_read: pread of the disk header at offset 0 (short read
maps to -EINTR), then binlog_verify_hdr, propagating its code. -/
def binlog_hdr_read (f : BinFile) : Except Int DiskHdr :=
  if dhdrSize ≤ f.length then
    match f[0]? with
    | some (Cell.dh d) =>
        if binlog_verify_hdr d = 0 then Except.ok d
        else Except.error (binlog_verify_hdr d)
    | _ => Except.error (-EINVAL)
  else Except.error (-EINTR)

/-- Which OS calls of one open attempt succeed in this run. -/
structure OpenEnv where
  fileExists : Bool
  createErr : Option Int
  allocOk : Bool
  hdrWriteOk : Bool
  openErr : Option Int
  flockErr : Option Int
  ftruncErr : Option Int
  fstatErr : Option Int
deriving DecidableEq, Repr

/-- Outcome of binlog_create: the possibly mutated handle (its
preallocated-size field when extension ran), the created file content
on success, and the return code; abort is the assert in
binlog_hdr_write that the constructed header verifies. -/
inductive CreateOut
  | done (cfg : BinlogCfg) (created : Option BinFile) (e : Int)
  | abort
deriving Repr

/-- binlog_create: exclusive create (-EEXIST when the file exists),
extension by one preallocation step when configured, then construction
and durable write of a fresh disk header carrying the configured flags
(binlog_hdr_write asserts the header verifies; the write environment
flag covers the write and its datasync).  The descriptor is closed on
every path. -/
def binlog_create (cfg : BinlogCfg) (env : OpenEnv) : CreateOut :=
  if env.fileExists then CreateOut.done cfg none (-EEXIST)
  else
    match env.createErr with
    | some e => CreateOut.done cfg none e
    | none =>
      let ext := binlog_extend cfg [] env.allocOk
      if ext.2.2 ≠ 0 then CreateOut.done ext.1 none ext.2.2
      else
        let d : DiskHdr :=
          { magic := EBLOB_BINLOG_MAGIC, version := EBLOB_BINLOG_VERSION,
            flags := ext.1.flags }
        if binlog_verify_hdr d ≠ 0 then CreateOut.abort
        else if env.hdrWriteOk then
          CreateOut.done ext.1 (some (writeAt ext.2.1 0 (dhdrCells d))) 0
        else CreateOut.done ext.1 none (-Eio)

/-- Outcome of binlog_open: on an error return it also records whether
the descriptor opened by this attempt is still open and still locked
when the call returns (both false mean the cleanup paths ran). -/
inductive OpenOut
  | ok (cfg : BinlogCfg)
  | err (cfg : BinlogCfg) (e : Int) (fdOpen : Bool) (locked : Bool)
  | abort
deriving Repr

/-- binlog_open, step for step from the source: asserts the fd field is
-1 (the unopened sentinel); create-if-absent tolerating -EEXIST only;
reopen (the second open of the path); exclusive non-blocking lock
(failure closes the descriptor and returns); optional truncation to the
header size (failure unlocks, closes, returns); only then is the fd
field assigned; fstat (failure unlocks and closes but the fd field
keeps the now stale descriptor); the stat size becomes the
preallocated-size field; header read and verify (failure as for fstat);
finally the write cursor is recovered by the scan.  existing is the
on-disk content when the file already exists. -/
def binlog_open (cfg : BinlogCfg) (env : OpenEnv) (existing : BinFile) :
    OpenOut :=
  if cfg.fd ≠ -1 then OpenOut.abort else
  match binlog_create cfg env with
  | CreateOut.abort => OpenOut.abort
  | CreateOut.done cfg0 created e0 =>
    if e0 ≠ 0 ∧ e0 ≠ -EEXIST then OpenOut.err cfg0 e0 false false else
    let disk : BinFile := if env.fileExists then existing else created.getD []
    match env.openErr with
    | some e => OpenOut.err cfg0 e false false
    | none =>
    match env.flockErr with
    | some e => OpenOut.err cfg0 e false false
    | none =>
    let tr := cfg0.flags &&& EBLOB_BINLOG_FLAGS_CFG_TRUNCATE ≠ 0
    match (if tr then env.ftruncErr else none) with
    | some e => OpenOut.err cfg0 e false false
    | none =>
    let disk1 := if tr then disk.take dhdrSize else disk
    let cfg1 := { cfg0 with fd := 3 }
    match env.fstatErr with
    | some e => OpenOut.err cfg1 e false false
    | none =>
    let cfg2 := { cfg1 with preallocSize := disk1.length }
    match binlog_hdr_read disk1 with
    | Except.error e => OpenOut.err cfg2 e false false
    | Except.ok d =>
      OpenOut.ok
        { cfg2 with
          diskHdr := some d
          binlogPosition := binlog_get_next_lsn disk1 }

/-! ## Claim C5 -/

/-- All OS calls of the open attempt succeed, on an existing file. -/
def envGood : OpenEnv :=
  { fileExists := true, createErr := none, allocOk := true,
    hdrWriteOk := true, openErr := none, flockErr := none,
    ftruncErr := none, fstatErr := none }

/-- An existing binlog file whose header has a corrupted magic. -/
def fileBadMagic : BinFile := dhdrCells hdrBadMagic

/-- A handle as binlog_init leaves it: fd in the unopened state. -/
def cfgInit : BinlogCfg :=
  { flags := 0, preallocStep := 0, preallocSize := 0, fd := -1,
    binlogPosition := 0, diskHdr := none }

/-- The handle as the failed open of claim C5 leaves it: descriptor
unlocked and closed, but the fd field still holding the stale
descriptor number. -/
def cfgStale : BinlogCfg :=
  { flags := 0, preallocStep := 0, preallocSize := 24, fd := 3,
    binlogPosition := 0, diskHdr := none }

/-- Claim C5, failing input: opening an existing binlog whose header
magic is corrupt.  The open fails at the header-read step; the cleanup
path does unlock and close the descriptor and returns the error, but
the handle fd field - assigned before the stat step - is left holding
the stale descriptor instead of the unopened sentinel -1. -/
theorem binlog_open_hdr_read_failure_leaves_stale_fd :
    binlog_open cfgInit envGood fileBadMagic =
      OpenOut.err cfgStale (-EINVAL) false false ∧
    cfgStale.fd ≠ -1 := by
  constructor
  · rfl
  · decide

/-! ## Claim C6 -/

/-- Claim C6, counterexample: calling open on an already-open handle
(fd not -1) does not return an InvalidState error - it trips the
assert on the fd field and the process aborts. -/
theorem binlog_open_reopen_no_error_return :
    binlog_open cfgW envGood fileW = OpenOut.abort := by
  rfl

/-- Claim C6 (amended): an already-open handle violates the
assert fd == -1 precondition of open: the call aborts (under the
assertion semantics of the build) before performing any of the open
steps, rather than returning an InvalidState error. -/
theorem binlog_open_reopen_aborts (cfg : BinlogCfg) (env : OpenEnv)
    (existing : BinFile) (h : cfg.fd ≠ -1) :
    binlog_open cfg env existing = OpenOut.abort := by
  simp [binlog_open, h]

/-- Claim C6, witness: the amended statement at a concrete handle with
descriptor 5. -/
theorem binlog_open_reopen_aborts_witness :
    binlog_open { cfgInit with fd := 5 } envGood fileW = OpenOut.abort :=
  binlog_open_reopen_aborts { cfgInit with fd := 5 } envGood fileW (by decide)
